import Mathlib

/-!
Shallow embedding of the `vite-plugin-nette` source (src/index.ts).

The plugin has two parts:
* a Configuration Resolver (the `config` hook plus `getDefaultOutDir`), which
  is pure merging of user overrides with defaults plus one filesystem check;
* a Dev-Server Coordinator (`generateInfoFile` attached by `configureServer`),
  which reacts to the HTTP listener's `listening` and `close` events by
  writing/removing an info JSON file and mutating `resolvedConfig.server.origin`.

The filesystem is modelled explicitly as a list of directories and a list of
(path, contents) files; Node's `path.resolve`/`path.dirname` are modelled on
slash-separated strings (right-to-left absolute-wins resolution, no `.`/`..`
normalization, no cwd prepending — none of the verified claims depend on
those).  JS truthiness of the host / entry values is modelled exactly
(`undefined`, `false` and the empty string are falsy; arrays are truthy).
-/

namespace VPN

/-- A Vite `server.host` value: `string | boolean` (absent is modelled with
`Option`). -/
inductive HostVal where
  | bool (b : Bool)
  | str (s : String)
deriving DecidableEq, Repr

/-- JS truthiness of a host value: `false` and `""` are falsy. -/
def HostVal.truthy : HostVal → Bool
  | .bool b => b
  | .str s => s ≠ ""

/-- JS template-literal coercion of a host value to a string. -/
def HostVal.display : HostVal → String
  | .bool b => if b then "true" else "false"
  | .str s => s

/-- JS `a || b` on host values: the left operand if truthy, else the right. -/
def jsOrHost (a b : HostVal) : HostVal := if a.truthy then a else b

/-- The host chain of the source,
`pluginConfig.host || resolvedConfig.server.host || 'localhost'`
(`pluginConfig.host` is `string | undefined`, the server host is
`string | boolean | undefined`; `undefined` is falsy). -/
def rawHost (pluginHost : Option String) (serverHost : Option HostVal) : HostVal :=
  jsOrHost (.str (pluginHost.getD ""))
    (jsOrHost (serverHost.getD (.bool false)) (.str "localhost"))

/-- The sentinel rewrite of the source:
`if (host === true || host === '0.0.0.0') host = 'localhost'`,
followed by the template-literal use of the host.  Used identically in the
`config` hook (for the CORS origin) and in the `listening` handler. -/
def advertisedHost (pluginHost : Option String) (serverHost : Option HostVal) : String :=
  let host := rawHost pluginHost serverHost
  if host = HostVal.bool true ∨ host = HostVal.str "0.0.0.0" then "localhost"
  else host.display

/-- `resolvedConfig.server.https ? 'https' : 'http'`. -/
def protocolOf (https : Bool) : String := if https then "https" else "http"

/-- The URL built in the `listening` handler:
`port === 80 ? protocol://host : protocol://host:port`. -/
def devServerUrl (protocol host : String) (port : Nat) : String :=
  if port = 80 then protocol ++ "://" ++ host
  else protocol ++ "://" ++ host ++ ":" ++ toString port

/-- `path.isAbsolute` on POSIX-style paths: the path opens with a slash. -/
def isAbsolute (p : String) : Bool :=
  match p.toList with
  | [] => false
  | c :: _ => c == '/'

/-- One right-to-left step of `path.resolve`: an absolute segment wins,
otherwise it is joined under the base (no normalization modelled). -/
def resolveUnder (base p : String) : String :=
  if isAbsolute p then p else base ++ "/" ++ p

/-- `path.resolve(a, b, c)` as used for the info-file path. -/
def resolve3 (a b c : String) : String := resolveUnder (resolveUnder a b) c

/-- The filesystem: a set of existing directories and a list of files with
their contents. -/
structure FS where
  dirs : List String
  files : List (String × String)
deriving DecidableEq, Repr

/-- `fs.existsSync` (true for an existing directory or file at the path). -/
def FS.existsPath (fs : FS) (p : String) : Bool :=
  fs.dirs.contains p || (fs.files.lookup p).isSome

/-- Split a path at every slash (the segment list of the path). -/
def splitSlashAux : List Char → List Char → List String
  | [], acc => [String.mk acc.reverse]
  | c :: cs, acc =>
      if c = '/' then String.mk acc.reverse :: splitSlashAux cs []
      else splitSlashAux cs (c :: acc)

/-- The slash-separated segments of a path. -/
def splitSlash (p : String) : List String := splitSlashAux p.toList []

/-- Join path segments with slashes. -/
def joinSlash : List String → String
  | [] => ""
  | [x] => x
  | x :: xs => x ++ "/" ++ joinSlash xs

/-- `path.dirname` on slash-separated paths. -/
def dirname (p : String) : String :=
  let parts := splitSlash p
  if parts.length ≤ 1 then "." else joinSlash parts.dropLast

/-- All the prefixes-by-segments of a directory path, innermost last: the set
of directories `fs.mkdirSync(dir, { recursive: true })` brings into existence. -/
def ancestors (d : String) : List String :=
  let parts := splitSlash d
  (List.range parts.length).map (fun i => joinSlash (parts.take (i + 1)))

/-- `fs.mkdirSync(d, { recursive: true })`: creates `d` and every missing
ancestor; never errors when some of them already exist. -/
def mkdirRec (fs : FS) (d : String) : FS :=
  { fs with dirs := ancestors d ++ fs.dirs }

/-- `fs.writeFileSync`: (over)writes the file at `p`. -/
def writeFile (fs : FS) (p content : String) : FS :=
  { fs with files := (p, content) :: fs.files.filter (fun kv => kv.1 != p) }

/-- `writeJson` of the source: ensure the parent directory of `filePath`
exists (`existsSync` guard, then recursive `mkdirSync`), then write the
serialized data. -/
def writeJson (fs : FS) (filePath data : String) : FS :=
  let dir := dirname filePath
  let fs1 := if fs.existsPath dir then fs else mkdirRec fs dir
  writeFile fs1 filePath data

/-- `JSON.stringify({ devServer: url }, null, '\t')`: pretty-printed,
tab-indented, single field `devServer` (escaping of special characters inside
the URL is not modelled; the URLs at stake contain none). -/
def renderInfo (url : String) : String :=
  "\x7b\n\t\"devServer\": \"" ++ url ++ "\"\n\x7d"

/-- `fs.rmSync(p, { force: true })`: removes the file if present, and is a
non-erroring no-op when it is absent. -/
def rmForce (fs : FS) (p : String) : FS :=
  { fs with files := fs.files.filter (fun kv => kv.1 != p) }

/-- Whether a file exists at `p`. -/
def fileExists (fs : FS) (p : String) : Bool :=
  (fs.files.lookup p).isSome

/-- The slice of `ResolvedConfig` the Coordinator reads. -/
structure ServerConfig where
  https : Bool
  host : Option HostVal
deriving DecidableEq, Repr

/-- The Coordinator-visible state: the filesystem plus the mutable
`resolvedConfig.server.origin` field. -/
structure CoordState where
  fs : FS
  origin : String
deriving DecidableEq, Repr

/-- A listener lifecycle event (the `listening` event carries the bound
port reported by `httpServer.address().port`). -/
inductive LifecycleEvent where
  | listening (port : Nat)
  | close
deriving DecidableEq, Repr

/-- The URL computed inside the `listening` handler of `generateInfoFile`. -/
def listeningUrl (cfg : ServerConfig) (pluginHost : Option String) (port : Nat) : String :=
  devServerUrl (protocolOf cfg.https) (advertisedHost pluginHost cfg.host) port

/-- One Coordinator transition, exactly the two event handlers registered by
`generateInfoFile`: on `listening`, write the info file and set
`server.origin` to the same URL; on `close`, `rmSync` the info file with
`force: true`. -/
def stepEvent (cfg : ServerConfig) (pluginHost : Option String) (infoFilePath : String)
    (s : CoordState) (e : LifecycleEvent) : CoordState :=
  match e with
  | .listening port =>
      let url := listeningUrl cfg pluginHost port
      { fs := writeJson s.fs infoFilePath (renderInfo url), origin := url }
  | .close => { s with fs := rmForce s.fs infoFilePath }

/-- The Coordinator's reaction to a whole (serial) sequence of lifecycle
events. -/
def runEvents (cfg : ServerConfig) (pluginHost : Option String) (infoFilePath : String)
    (s : CoordState) (es : List LifecycleEvent) : CoordState :=
  es.foldl (stepEvent cfg pluginHost infoFilePath) s

/-- Whether the listener is Active after the events: a `listening` has
occurred with no subsequent `close` (folded over the event sequence). -/
def activeUpd (_b : Bool) (e : LifecycleEvent) : Bool :=
  match e with
  | .listening _ => true
  | .close => false

/-- The Active flag after a sequence of events, starting from `b`. -/
def activeAfter (b : Bool) (es : List LifecycleEvent) : Bool :=
  es.foldl activeUpd b

/-- Whenever the info file is present, its contents render the current
`server.origin` value. -/
def originMatches (ip : String) (s : CoordState) : Prop :=
  ∀ c, s.fs.files.lookup ip = some c → c = renderInfo s.origin

/-! ## Configuration Resolver (`getDefaultOutDir` and the `config` hook) -/

/-- `getDefaultOutDir` of the source: compute `<cwd>/www` and
`<cwd>/www/assets`; when the `www` directory does not exist, throw an error
naming the assets directory and advising `build.outDir`; otherwise return the
assets directory. -/
def getDefaultOutDir (cwd : String) (fs : FS) : Except String String :=
  let wwwDirectory := cwd ++ "/www"
  let assetsDirectory := wwwDirectory ++ "/assets"
  if fs.existsPath wwwDirectory then Except.ok assetsDirectory
  else Except.error ("The output directory \"" ++ assetsDirectory ++
    "\" does not exist. Please set \"build.outDir\" in your Vite config.")

/-- `userConfig.build?.outDir ?? getDefaultOutDir()`: an explicit override is
taken as-is (`??` only falls through on `undefined`), so the filesystem check
runs only when no override was supplied. -/
def resolveOutDir (userOutDir : Option String) (cwd : String) (fs : FS) :
    Except String String :=
  match userOutDir with
  | some o => Except.ok o
  | none => getDefaultOutDir cwd fs

/-- A Vite `server.allowedHosts` value, `string[] | true`. -/
inductive AllowedHostsVal where
  | list (xs : List String)
  | all
deriving DecidableEq, Repr

/-- JS truthiness of an `allowedHosts` value: arrays are truthy even when
empty, and the literal `true` is truthy. -/
def AllowedHostsVal.truthy : AllowedHostsVal → Bool
  | .list _ => true
  | .all => true

/-- The `allowedHosts` expression of the `config` hook,
`userConfig.server?.allowedHosts ?? host === 'localhost' ? undefined : [host]`.
By JS operator precedence `??` binds tighter than `?:`, so this parses as
`(allowedHosts ?? (host === 'localhost')) ? undefined : [host]`: a supplied
user value becomes the ternary condition, it is never passed through. -/
def allowedHostsResolved (userAllowedHosts : Option AllowedHostsVal) (host : String) :
    Option (List String) :=
  let cond : Bool :=
    match userAllowedHosts with
    | some v => v.truthy
    | none => host == "localhost"
  if cond then none else some [host]

/-- The project-specific CORS origin entry of the `config` hook: the second
element of the `cors.origin` array (next to Vite's `defaultAllowedOrigins`),
built from the same normalized host as the advertised URL. -/
def corsProjectOrigin (https : Bool) (pluginHost : Option String)
    (userServerHost : Option HostVal) : String :=
  protocolOf https ++ "://" ++ advertisedHost pluginHost userServerHost

/-- A plugin `entry` value, `string | string[]`. -/
inductive EntryVal where
  | str (s : String)
  | arr (xs : List String)
deriving DecidableEq, Repr

/-- JS truthiness of an entry value (`if (pluginConfig.entry)`): the empty
string is falsy, arrays are always truthy. -/
def EntryVal.truthy : EntryVal → Bool
  | .str s => s ≠ ""
  | .arr _ => true

/-- `Array.isArray(entry) ? entry : [entry]`. -/
def EntryVal.toList : EntryVal → List String
  | .str s => [s]
  | .arr xs => xs

/-- The entry resolution of the `config` hook: only when `pluginConfig.entry`
is truthy, wrap a single string into a list and `path.resolve(root, entry)`
each element. -/
def resolveEntry (root : String) (entry : Option EntryVal) : Option (List String) :=
  match entry with
  | none => none
  | some ev => if ev.truthy then some (ev.toList.map (fun e => resolveUnder root e)) else none

/-! ## Module-level mutable state and the plugin factory -/

/-- `pluginConfig` after the defaulting done by `vitePluginNette`. -/
structure PluginConfigR where
  infoFile : String
  host : Option String
  entry : Option EntryVal
deriving DecidableEq, Repr

/-- The user-facing `PluginConfig` argument of the factory. -/
structure PluginConfigIn where
  infoFile : Option String
  host : Option String
  entry : Option EntryVal
deriving DecidableEq, Repr

/-- The module-level mutable state of the source file: the `let pluginConfig`
variable shared by every hook of every plugin instance. -/
structure ModuleState where
  pluginConfig : PluginConfigR
deriving DecidableEq, Repr

/-- The exported factory `vitePluginNette(config)`: assigns the module-level
`pluginConfig` (defaulting `infoFile` to `.vite/nette.json`), overwriting
whatever a previous construction stored. -/
def vitePluginNette (config : PluginConfigIn) (_s : ModuleState) : ModuleState :=
  { pluginConfig :=
      { infoFile := config.infoFile.getD ".vite/nette.json"
        host := config.host
        entry := config.entry } }

/-- The info-file path computed in `generateInfoFile`:
`path.resolve(resolvedConfig.root, resolvedConfig.build.outDir,
pluginConfig.infoFile)`, reading the module-level `pluginConfig`. -/
def moduleInfoFilePath (s : ModuleState) (root outDir : String) : String :=
  resolve3 root outDir s.pluginConfig.infoFile

/-- The guard of `configureServer`:
`resolvedConfig.command === 'serve' && devServer.httpServer`. -/
def configureServerAttaches (command : String) (httpServer : Option Unit) : Bool :=
  command == "serve" && httpServer.isSome

/-- The plugin's whole effect on Coordinator-visible state: when the
`configureServer` guard holds, `generateInfoFile` registers the handlers and
the event sequence is processed; otherwise no handler is ever registered and
the state is untouched. -/
def pluginServerRun (command : String) (httpServer : Option Unit) (cfg : ServerConfig)
    (pluginHost : Option String) (infoFilePath : String) (s : CoordState)
    (es : List LifecycleEvent) : CoordState :=
  if configureServerAttaches command httpServer then
    runEvents cfg pluginHost infoFilePath s es
  else s

/-! ## Helper lemmas about the filesystem model -/

theorem lookup_writeFile_self (fs : FS) (p c : String) :
    (writeFile fs p c).files.lookup p = some c := by
  simp [writeFile, List.lookup]

theorem lookup_filter_ne_self (p : String) (l : List (String × String)) :
    (l.filter (fun kv => kv.1 != p)).lookup p = none := by
  induction l with
  | nil => rfl
  | cons kv t ih =>
    obtain ⟨k, v⟩ := kv
    by_cases h : k = p
    · simp only [List.filter_cons]
      simpa [h] using ih
    · have hb : (p == k) = false := by simp [Ne.symm h]
      simp [List.filter_cons, bne, h, List.lookup_cons, hb, ih]
      intro a b _ h2 he
      exact h2 he.symm

theorem lookup_none_keys (p : String) (l : List (String × String))
    (h : l.lookup p = none) : ∀ kv ∈ l, kv.1 ≠ p := by
  induction l with
  | nil => simp
  | cons hd t ih =>
    obtain ⟨k, v⟩ := hd
    rw [List.lookup_cons] at h
    by_cases hk : p = k
    · simp [hk] at h
    · have hb : (p == k) = false := by simp [hk]
      rw [hb] at h
      intro kv hmem
      rcases List.mem_cons.mp hmem with rfl | hm
      · exact fun he => hk he.symm
      · exact ih h kv hm

theorem filter_eq_self_of_lookup_none (p : String) (l : List (String × String))
    (h : l.lookup p = none) : l.filter (fun kv => kv.1 != p) = l := by
  rw [List.filter_eq_self]
  intro kv hmem
  have := lookup_none_keys p l h kv hmem
  simpa [bne] using this

theorem rmForce_of_absent (fs : FS) (p : String) (h : fileExists fs p = false) :
    rmForce fs p = fs := by
  have hl : fs.files.lookup p = none := by
    unfold fileExists at h
    cases hx : fs.files.lookup p with
    | none => rfl
    | some c => rw [hx] at h; simp at h
  simp [rmForce, filter_eq_self_of_lookup_none p fs.files hl]

theorem fileExists_stepEvent_listening (cfg : ServerConfig) (ph : Option String)
    (ip : String) (s : CoordState) (port : Nat) :
    fileExists (stepEvent cfg ph ip s (.listening port)).fs ip = true := by
  simp [stepEvent, fileExists, writeJson, lookup_writeFile_self]

theorem fileExists_stepEvent_close (cfg : ServerConfig) (ph : Option String)
    (ip : String) (s : CoordState) :
    fileExists (stepEvent cfg ph ip s .close).fs ip = false := by
  simp [stepEvent, fileExists, rmForce, lookup_filter_ne_self]

theorem fileExists_runEvents (cfg : ServerConfig) (ph : Option String) (ip : String)
    (es : List LifecycleEvent) :
    ∀ s : CoordState,
      fileExists (runEvents cfg ph ip s es).fs ip = activeAfter (fileExists s.fs ip) es := by
  induction es with
  | nil => intro s; rfl
  | cons e t ih =>
    intro s
    rw [runEvents, List.foldl_cons, activeAfter, List.foldl_cons]
    have := ih (stepEvent cfg ph ip s e)
    rw [runEvents] at this
    rw [this]
    cases e with
    | listening port =>
        rw [fileExists_stepEvent_listening]; rfl
    | close =>
        rw [fileExists_stepEvent_close]; rfl

theorem originMatches_step (cfg : ServerConfig) (ph : Option String) (ip : String)
    (s : CoordState) (e : LifecycleEvent) :
    originMatches ip (stepEvent cfg ph ip s e) := by
  cases e with
  | listening port =>
    intro c hc
    have hl : (stepEvent cfg ph ip s (.listening port)).fs.files.lookup ip
        = some (renderInfo (listeningUrl cfg ph port)) := by
      simp [stepEvent, writeJson, lookup_writeFile_self]
    rw [hl] at hc
    rw [(Option.some.inj hc).symm]
    rfl
  | close =>
    intro c hc
    have hn : (stepEvent cfg ph ip s .close).fs.files.lookup ip = none :=
      lookup_filter_ne_self ip s.fs.files
    rw [hn] at hc
    cases hc

theorem originMatches_run (cfg : ServerConfig) (ph : Option String) (ip : String)
    (es : List LifecycleEvent) :
    ∀ s : CoordState, originMatches ip s → originMatches ip (runEvents cfg ph ip s es) := by
  induction es with
  | nil => intro s h; exact h
  | cons e t ih =>
    intro s _h
    rw [runEvents, List.foldl_cons]
    exact ih (stepEvent cfg ph ip s e) (originMatches_step cfg ph ip s e)

/-! ## Claim theorems -/

/-- C1: over any sequence of listener lifecycle events on one attached
Coordinator, the info file at the configured path exists iff the listener is
Active (a `listening` happened with no later `close`); the file is created on
each `listening`, removed on each `close`, this holds over arbitrarily
repeated cycles, and removal of an absent file is a non-erroring no-op. -/
theorem infoFile_iff_active (cfg : ServerConfig) (ph : Option String) (ip : String)
    (es : List LifecycleEvent) (s0 : CoordState)
    (h0 : fileExists s0.fs ip = false) :
    (fileExists (runEvents cfg ph ip s0 es).fs ip = true ↔ activeAfter false es = true)
    ∧ (∀ s : CoordState, fileExists (stepEvent cfg ph ip s (.listening 0)).fs ip = true)
    ∧ (∀ s : CoordState, fileExists (stepEvent cfg ph ip s .close).fs ip = false)
    ∧ (∀ fs : FS, fileExists fs ip = false → rmForce fs ip = fs) := by
  refine ⟨?_, ?_, ?_, ?_⟩
  · rw [fileExists_runEvents, h0]
  · intro s; exact fileExists_stepEvent_listening cfg ph ip s 0
  · intro s; exact fileExists_stepEvent_close cfg ph ip s
  · intro fs h; exact rmForce_of_absent fs ip h

/-- Closed witness for C1 at a concrete listen/close/listen trace. -/
theorem infoFile_iff_active_witness :
    fileExists (runEvents ⟨false, none⟩ none ".vite/nette.json" ⟨⟨[], []⟩, ""⟩
      [.listening 5173, .close, .listening 3000]).fs ".vite/nette.json" = true :=
  (infoFile_iff_active ⟨false, none⟩ none ".vite/nette.json"
    [.listening 5173, .close, .listening 3000] ⟨⟨[], []⟩, ""⟩ rfl).1.mpr (by decide)

/-- C2: the URL produced on the `listening` event is
`protocol://host:port` for every port other than 80, and exactly
`protocol://host` when the bound port is 80. -/
theorem devServerUrl_port_form (cfg : ServerConfig) (ph : Option String) (ip : String)
    (s : CoordState) (port : Nat) :
    (port ≠ 80 →
      (stepEvent cfg ph ip s (.listening port)).origin
        = protocolOf cfg.https ++ "://" ++ advertisedHost ph cfg.host ++ ":" ++ toString port)
    ∧ (stepEvent cfg ph ip s (.listening 80)).origin
        = protocolOf cfg.https ++ "://" ++ advertisedHost ph cfg.host := by
  constructor
  · intro hp
    simp [stepEvent, listeningUrl, devServerUrl, hp]
  · simp [stepEvent, listeningUrl, devServerUrl]

/-- Closed witness for C2 at https, port 5173. -/
theorem devServerUrl_port_form_witness :
    (stepEvent ⟨true, none⟩ none ".vite/nette.json" ⟨⟨[], []⟩, ""⟩
      (.listening 5173)).origin = "https://localhost:5173" := by
  have h := (devServerUrl_port_form ⟨true, none⟩ none ".vite/nette.json"
    ⟨⟨[], []⟩, ""⟩ 5173).1 (by decide)
  rw [h]
  rfl

/-- C3: the advertised host is the plugin-config host override when set
(truthy), else the resolved server host when set (truthy), else `localhost`;
a host equal to the all-interfaces sentinel (`true` or `0.0.0.0`) is replaced
by `localhost`; and the config hook's project CORS origin is built from the
host normalized the same way. -/
theorem host_priority_normalization (ph : Option String) (sh : Option HostVal) :
    (∀ s, ph = some s → s ≠ "" →
      advertisedHost ph sh = (if s = "0.0.0.0" then "localhost" else s))
    ∧ ((ph = none ∨ ph = some "") → ∀ v, sh = some v → v.truthy = true →
      advertisedHost ph sh =
        (match v with
          | .bool _ => "localhost"
          | .str s => if s = "0.0.0.0" then "localhost" else s))
    ∧ ((ph = none ∨ ph = some "") →
        (sh = none ∨ sh = some (.bool false) ∨ sh = some (.str "")) →
        advertisedHost ph sh = "localhost")
    ∧ ((rawHost ph sh = .bool true ∨ rawHost ph sh = .str "0.0.0.0") →
        advertisedHost ph sh = "localhost")
    ∧ (∀ https, corsProjectOrigin https ph sh
        = protocolOf https ++ "://" ++ advertisedHost ph sh) := by
  refine ⟨?_, ?_, ?_, ?_, ?_⟩
  · rintro s rfl hn
    by_cases h4 : s = "0.0.0.0" <;>
      simp [advertisedHost, rawHost, jsOrHost, HostVal.truthy, HostVal.display, hn, h4]
  · rintro hph v rfl ht
    have hempty : (ph.getD "") = "" := by
      rcases hph with rfl | rfl <;> rfl
    cases v with
    | bool b =>
      cases b with
      | true =>
        simp [advertisedHost, rawHost, jsOrHost, HostVal.truthy, hempty]
      | false => simp [HostVal.truthy] at ht
    | str s =>
      have hn : s ≠ "" := by simpa [HostVal.truthy] using ht
      by_cases h4 : s = "0.0.0.0" <;>
        simp [advertisedHost, rawHost, jsOrHost, HostVal.truthy, HostVal.display,
          hempty, hn, h4]
  · rintro hph hs
    have hempty : (ph.getD "") = "" := by
      rcases hph with rfl | rfl <;> rfl
    rcases hs with rfl | rfl | rfl <;>
      simp [advertisedHost, rawHost, jsOrHost, HostVal.truthy, HostVal.display, hempty]
  · intro h
    simp [advertisedHost, h]
  · intro https
    rfl

/-- Closed witness for C3: a plugin host override beats an all-interfaces
bundler host. -/
theorem host_priority_normalization_witness :
    advertisedHost (some "192.168.1.200") (some (.bool true)) = "192.168.1.200" := by
  have h := (host_priority_normalization (some "192.168.1.200")
    (some (.bool true))).1 "192.168.1.200" rfl (by decide)
  simpa using h

/-- C4: after the first Active transition, the artifact's `devServer` field is
always the rendering of the current `server.origin` (both are set to the same
URL in the same `listening` transition), and a `close` transition never
writes `server.origin`. -/
theorem origin_matches_artifact (cfg : ServerConfig) (ph : Option String) (ip : String)
    (es : List LifecycleEvent) (s0 : CoordState)
    (h0 : fileExists s0.fs ip = false) :
    (∀ c, (runEvents cfg ph ip s0 es).fs.files.lookup ip = some c →
        c = renderInfo (runEvents cfg ph ip s0 es).origin)
    ∧ (∀ s : CoordState, (stepEvent cfg ph ip s .close).origin = s.origin)
    ∧ (∀ s : CoordState, ∀ port,
        (stepEvent cfg ph ip s (.listening port)).origin = listeningUrl cfg ph port
        ∧ (stepEvent cfg ph ip s (.listening port)).fs.files.lookup ip
            = some (renderInfo (listeningUrl cfg ph port))) := by
  refine ⟨?_, ?_, ?_⟩
  · have hinv : originMatches ip s0 := by
      intro c hc
      unfold fileExists at h0
      rw [hc] at h0
      simp at h0
    exact originMatches_run cfg ph ip es s0 hinv
  · intro s; rfl
  · intro s port
    refine ⟨rfl, ?_⟩
    simp [stepEvent, writeJson, lookup_writeFile_self]

/-- Closed witness for C4: the `listening` transition sets `server.origin` to
the computed URL. -/
theorem origin_matches_artifact_witness :
    (stepEvent ⟨false, none⟩ none ".vite/nette.json" ⟨⟨[], []⟩, ""⟩
      (.listening 5173)).origin = listeningUrl ⟨false, none⟩ none 5173 :=
  ((origin_matches_artifact ⟨false, none⟩ none ".vite/nette.json" []
    ⟨⟨[], []⟩, ""⟩ rfl).2.2 ⟨⟨[], []⟩, ""⟩ 5173).1

/-- C5: configuration resolution fails iff no explicit `outDir` override is
given and no `www` entry exists under the cwd; the error names
`<cwd>/www/assets` and advises setting `build.outDir`; with an explicit
override the check is bypassed and resolution always succeeds. -/
theorem outDir_resolution (userOutDir : Option String) (cwd : String) (fs : FS) :
    ((∃ m, resolveOutDir userOutDir cwd fs = .error m) ↔
      userOutDir = none ∧ fs.existsPath (cwd ++ "/www") = false)
    ∧ (fs.existsPath (cwd ++ "/www") = false →
        resolveOutDir none cwd fs = .error
          ("The output directory \"" ++ (cwd ++ "/www" ++ "/assets") ++
            "\" does not exist. Please set \"build.outDir\" in your Vite config."))
    ∧ (∀ o, resolveOutDir (some o) cwd fs = .ok o) := by
  refine ⟨?_, ?_, ?_⟩
  · constructor
    · rintro ⟨m, hm⟩
      cases userOutDir with
      | some o => simp [resolveOutDir] at hm
      | none =>
        refine ⟨rfl, ?_⟩
        by_cases h : fs.existsPath (cwd ++ "/www") = true
        · simp [resolveOutDir, getDefaultOutDir, h] at hm
        · simpa using h
    · rintro ⟨rfl, h2⟩
      exact ⟨"The output directory \"" ++ (cwd ++ "/www" ++ "/assets") ++
          "\" does not exist. Please set \"build.outDir\" in your Vite config.",
        by simp [resolveOutDir, getDefaultOutDir, h2]⟩
  · intro h
    simp [resolveOutDir, getDefaultOutDir, h]
  · intro o
    rfl

/-- Closed witness for C5: empty project directory, no override. -/
theorem outDir_resolution_witness :
    resolveOutDir none "/app" ⟨[], []⟩ = .error
      "The output directory \"/app/www/assets\" does not exist. Please set \"build.outDir\" in your Vite config." := by
  have h := (outDir_resolution none "/app" ⟨[], []⟩).2.1 (by decide)
  rw [h]
  exact congrArg Except.error (by decide)

/-- C6: evaluation of the `allowedHosts` expression.  By JS operator
precedence the source line parses as
`(userConfig.server?.allowedHosts ?? (host === 'localhost')) ? undefined : [host]`,
so a user-supplied `allowedHosts` value (always truthy — arrays and `true`)
makes the whole expression `undefined` instead of being passed through, and
the host override is dropped as well; without a user value the expression is
`[host]` exactly when the host differs from `localhost`. -/
theorem allowedHosts_user_value_dropped :
    allowedHostsResolved (some (.list ["example.com"])) "192.168.1.200" = none
    ∧ allowedHostsResolved (some .all) "192.168.1.200" = none
    ∧ allowedHostsResolved none "192.168.1.200" = some ["192.168.1.200"]
    ∧ allowedHostsResolved none "localhost" = none := by
  refine ⟨rfl, rfl, ?_, ?_⟩ <;> decide

/-- C7: the artifact is written at `resolve(root, outDir, infoFilePath)`
(default `.vite/nette.json`), its contents are the tab-indented JSON object
with the single `devServer` field, missing intermediate directories of the
path are all created before the write, and when the parent directory already
exists the directory set is left untouched (creation never errors). -/
theorem artifact_path_format_mkdir (fs : FS) (root outDir ifile url : String) :
    ((writeJson fs (resolve3 root outDir ifile) (renderInfo url)).files.lookup
        (resolve3 root outDir ifile) = some (renderInfo url))
    ∧ renderInfo url = "\x7b\n\t\"devServer\": \"" ++ url ++ "\"\n\x7d"
    ∧ (fs.existsPath (dirname (resolve3 root outDir ifile)) = false →
        ∀ a ∈ ancestors (dirname (resolve3 root outDir ifile)),
          a ∈ (writeJson fs (resolve3 root outDir ifile) (renderInfo url)).dirs)
    ∧ (fs.existsPath (dirname (resolve3 root outDir ifile)) = true →
        (writeJson fs (resolve3 root outDir ifile) (renderInfo url)).dirs = fs.dirs)
    ∧ (∀ h e s, (vitePluginNette ⟨none, h, e⟩ s).pluginConfig.infoFile = ".vite/nette.json") := by
  refine ⟨?_, rfl, ?_, ?_, ?_⟩
  · simp [writeJson, lookup_writeFile_self]
  · intro hmiss a ha
    simp [writeJson, hmiss, mkdirRec, writeFile]
    exact Or.inl ha
  · intro hex
    simp [writeJson, hex, writeFile]
  · intro h e s
    rfl

/-- Closed witness for C7: from an empty filesystem, the `.vite` parent
directory of the default artifact path is created. -/
theorem artifact_path_format_mkdir_witness :
    "/app/www/assets/.vite" ∈ (writeJson ⟨[], []⟩
      (resolve3 "/app" "www/assets" ".vite/nette.json")
      (renderInfo "http://localhost:5173")).dirs := by
  have h := (artifact_path_format_mkdir ⟨[], []⟩ "/app" "www/assets" ".vite/nette.json"
    "http://localhost:5173").2.2.1 (by decide)
  exact h "/app/www/assets/.vite" (by decide)

/-- C8 counterexample: an empty single entry string is a path string, yet the
code produces no entry list for it (JS truthiness of `if (pluginConfig.entry)`
treats `''` as absent), so the resolved input is not a sequence of the same
length 1. -/
theorem entry_empty_string_drops :
    resolveEntry "assets" (some (.str "")) = none
    ∧ (EntryVal.str "").toList.length = 1 := by
  exact ⟨rfl, rfl⟩

/-- C8 (amended): when no entry is provided no entry list is produced, and
for every truthy entry setting (a nonempty single path string, or any
sequence of path strings) the resolved input has the same length in the same
order, with absolute elements unchanged and relative elements resolved under
the root. -/
theorem entry_resolution (root : String) (oe : Option EntryVal) :
    (oe = none → resolveEntry root oe = none)
    ∧ (∀ ev, oe = some ev → ev.truthy = true →
        ∃ l, resolveEntry root oe = some l
          ∧ l.length = ev.toList.length
          ∧ ∀ i, (hi : i < ev.toList.length) → (hl : i < l.length) →
              l.get ⟨i, hl⟩ =
                (if isAbsolute (ev.toList.get ⟨i, hi⟩) then ev.toList.get ⟨i, hi⟩
                 else root ++ "/" ++ ev.toList.get ⟨i, hi⟩)) := by
  constructor
  · rintro rfl
    rfl
  · rintro ev rfl ht
    refine ⟨ev.toList.map (fun e => resolveUnder root e), ?_, ?_, ?_⟩
    · simp [resolveEntry, ht]
    · simp
    · intro i hi hl
      simp [resolveUnder]

/-- Closed witness for C8 (amended): a relative and an absolute entry. -/
theorem entry_resolution_witness :
    ∃ l, resolveEntry "assets" (some (EntryVal.arr ["app.js", "/abs/main.js"])) = some l
      ∧ l.length = (EntryVal.arr ["app.js", "/abs/main.js"]).toList.length
      ∧ ∀ i, (hi : i < (EntryVal.arr ["app.js", "/abs/main.js"]).toList.length) →
          (hl : i < l.length) →
          l.get ⟨i, hl⟩ =
            (if isAbsolute ((EntryVal.arr ["app.js", "/abs/main.js"]).toList.get ⟨i, hi⟩)
             then (EntryVal.arr ["app.js", "/abs/main.js"]).toList.get ⟨i, hi⟩
             else "assets" ++ "/" ++ (EntryVal.arr ["app.js", "/abs/main.js"]).toList.get ⟨i, hi⟩) :=
  (entry_resolution "assets" (some (EntryVal.arr ["app.js", "/abs/main.js"]))).2
    (EntryVal.arr ["app.js", "/abs/main.js"]) rfl (by decide)

/-- C9: the Coordinator attaches exactly when the command is `serve` and the
dev server exposes a non-null HTTP server handle; under any other command the
Coordinator-visible state (in particular the filesystem) is untouched by
every event sequence. -/
theorem configureServer_guard (command : String) (httpServer : Option Unit)
    (cfg : ServerConfig) (ph : Option String) (ip : String) (s : CoordState)
    (es : List LifecycleEvent) :
    (configureServerAttaches command httpServer = true ↔
      command = "serve" ∧ httpServer.isSome = true)
    ∧ (command ≠ "serve" → pluginServerRun command httpServer cfg ph ip s es = s)
    ∧ (httpServer = none → pluginServerRun command httpServer cfg ph ip s es = s) := by
  refine ⟨?_, ?_, ?_⟩
  · simp [configureServerAttaches]
  · intro h
    have hc : configureServerAttaches command httpServer = false := by
      simp [configureServerAttaches, h]
    simp [pluginServerRun, hc]
  · rintro rfl
    simp [pluginServerRun, configureServerAttaches]

/-- Closed witness for C9: under the build command nothing is written. -/
theorem configureServer_guard_witness :
    pluginServerRun "build" (some ()) ⟨false, none⟩ none ".vite/nette.json"
      ⟨⟨[], []⟩, ""⟩ [.listening 5173] = ⟨⟨[], []⟩, ""⟩ :=
  (configureServer_guard "build" (some ()) ⟨false, none⟩ none ".vite/nette.json"
    ⟨⟨[], []⟩, ""⟩ [.listening 5173]).2.1 (by decide)

/-- C10: plugin/resolved configuration live in module-level mutable variables
shared by all instances: constructing a second instance overwrites the stored
plugin configuration completely (the result does not depend on the first
construction), so any hook invoked afterwards — whichever instance it belongs
to — reads the most recently constructed instance's settings. -/
theorem module_pluginConfig_overwrite (c1 c2 : PluginConfigIn) (s : ModuleState)
    (root outDir : String) :
    vitePluginNette c2 (vitePluginNette c1 s) = vitePluginNette c2 s
    ∧ (vitePluginNette c2 (vitePluginNette c1 s)).pluginConfig =
        { infoFile := c2.infoFile.getD ".vite/nette.json"
          host := c2.host
          entry := c2.entry }
    ∧ moduleInfoFilePath (vitePluginNette c2 (vitePluginNette c1 s)) root outDir
        = resolve3 root outDir (c2.infoFile.getD ".vite/nette.json") :=
  ⟨rfl, rfl, rfl⟩

end VPN
